import Mathlib

/-!
Verification of the adaptive date-extraction engine
(`src/ExpiringDate/extract_date.py`, `src/ExpiringDate/pattern_learner.py`)
against its natural-language specification.

The Python code is shallowly embedded: pure functions become Lean functions,
the mutable `DatePatternLearner` state becomes an explicit `LearnerState`
threaded through the operations, file-system effects become explicit `FsOp`
traces, and Python floats are modelled as exact rationals (every constant in
the source — 365.25, 0.7, 0.6, 0.5, 0.3, 0.2 — is exactly representable, and
all comparisons performed by the code are far from any rounding boundary at
integer day counts).  External collaborators (the Tesseract OCR engine, the
`dateparser` library, the `re` regex compiler and matcher) are passed in as
explicit function parameters, exactly at the interface boundary drawn in §6
of the specification.
-/

/-- A calendar date (year, month, day), the payload of `ParsedDate`. -/
structure Date where
  year : Nat
  month : Nat
  day : Nat
deriving DecidableEq

/-- Gregorian leap-year rule, as implemented by Python's `datetime`. -/
def isLeapYear (y : Nat) : Bool :=
  y % 4 = 0 && (y % 100 ≠ 0 || y % 400 = 0)

/-- Number of days in a month, as enforced by Python's `datetime` constructor. -/
def daysInMonth (y m : Nat) : Nat :=
  if m = 2 then (if isLeapYear y then 29 else 28)
  else if m = 4 ∨ m = 6 ∨ m = 9 ∨ m = 11 then 30
  else 31

/-- Days in year `y` strictly before month `m` (months are 1-based). -/
def daysBeforeMonth (y m : Nat) : Nat :=
  ((List.range (m - 1)).map (fun i => daysInMonth y (i + 1))).sum

/-- Proleptic-Gregorian ordinal of a date, as in Python's `date.toordinal`;
`toOrdinal a - toOrdinal b` is the `.days` of the `timedelta` `a - b`. -/
def toOrdinal (d : Date) : Int :=
  365 * ((d.year : Int) - 1)
    + ((d.year : Int) - 1) / 4
    - ((d.year : Int) - 1) / 100
    + ((d.year : Int) - 1) / 400
    + (daysBeforeMonth d.year d.month : Int)
    + (d.day : Int)

/-- The quantity `years_diff = (date_obj - now).days / 365.25` computed by
`validate_date_for_products` (extract_date.py lines 311-312); `diffDays` is
the `.days` of the datetime subtraction. -/
def years_from_now (diffDays : Int) : ℚ :=
  (diffDays : ℚ) / 365.25

/-- Embedding of `validate_date_for_products` (extract_date.py lines 304-337):
returns `(is_valid, confidence_score)` for a parsed date whose datetime
difference from `now` has the given `.days`. -/
def validate_date_for_products (diffDays : Int) : Bool × ℚ :=
  let years_diff := years_from_now diffDays
  if years_diff < -3 then (false, 0)
  else if years_diff > 10 then (false, 0)
  else if -1 ≤ years_diff ∧ years_diff ≤ 5 then (true, 1)
  else if -3 ≤ years_diff ∧ years_diff < -1 then (true, 0.7)
  else if 5 < years_diff ∧ years_diff ≤ 10 then (true, 0.6)
  else (true, 0.5)

/-- Pattern-priority score from `find_date` (extract_date.py line 141):
`1.0 - (i / len(all_patterns)) * 0.5`. -/
def pattern_score (i n : Nat) : ℚ :=
  1 - ((i : ℚ) / (n : ℚ)) * 0.5

/-- Position score from `find_date` (extract_date.py line 142):
`1.0 - (match.start() / len(text)) * 0.3`. -/
def position_score (pos len : Nat) : ℚ :=
  1 - ((pos : ℚ) / (len : ℚ)) * 0.3

/-- Total candidate score from `find_date` (extract_date.py lines 144-146):
`validation_score * 0.5 + pattern_score * 0.3 + position_score * 0.2`. -/
def total_score (v : ℚ) (i n pos len : Nat) : ℚ :=
  v * 0.5 + pattern_score i n * 0.3 + position_score pos len * 0.2

/-- Token filtering loop of `process_image` (extract_date.py lines 377-381):
keeps a token's text exactly when its confidence is strictly above 30. -/
def collect_text_parts : List (String × Int) → List String
  | [] => []
  | (t, conf) :: rest =>
    if (30 : Int) < conf then t :: collect_text_parts rest
    else collect_text_parts rest

/-- Pass text derivation of `process_image` (extract_date.py line 383):
`" ".join(text_parts)`. -/
def pass_text (toks : List (String × Int)) : String :=
  String.intercalate " " (collect_text_parts toks)

/-- Modelled from the spec: the specification's token-retention rule, which
keeps tokens whose confidence is at least 30 ("retains tokens with
confidence ≥ 30").  Stated separately so it can be compared with the
source-derived `collect_text_parts`. -/
def tokens_kept_spec (toks : List (String × Int)) : List String :=
  (toks.filter (fun t => decide ((30 : Int) ≤ t.2))).map (fun t => t.1)

/-- Keys of `Counter(all_dates)` in first-occurrence order (Python dicts
preserve insertion order; a `Counter` built from a list lists each distinct
element at the position of its first occurrence). -/
def firstKeysGo (seen : List Date) : List Date → List Date
  | [] => []
  | d :: ds =>
    if d ∈ seen then firstKeysGo seen ds
    else d :: firstKeysGo (seen ++ [d]) ds

/-- First-occurrence-ordered distinct dates of a vote list. -/
def firstKeys (l : List Date) : List Date :=
  firstKeysGo [] l

/-- Maximum-count selection of `Counter.most_common(1)`: scans the keys in
order and replaces the current best only on a strictly larger count, so a
tie keeps the earlier key (heapq.nlargest is equivalent to a stable
descending sort). -/
def pickMax (cnt : Date → Nat) : Date → List Date → Date
  | b, [] => b
  | b, k :: ks => pickMax cnt (if cnt b < cnt k then k else b) ks

/-- Embedding of `Counter(all_dates).most_common(1)[0]` from `process_image`
(extract_date.py lines 406-407): the winning date and its vote count, or
`none` for an empty vote list. -/
def most_common1 (l : List Date) : Option (Date × Nat) :=
  match firstKeys l with
  | [] => none
  | k :: ks =>
    let d := pickMax (fun x => l.count x) k ks
    some (d, l.count d)

/-- The voting step of `process_image` (extract_date.py lines 400-412): the
final date chosen from the per-pass dates, or `none` when no pass produced
one. -/
def vote_dates (l : List Date) : Option Date :=
  (most_common1 l).map (fun p => p.1)

/-- Modelled from the spec: the claimed Voting Aggregator rule — the date
with the most votes, ties broken by the highest individual total score among
the tied dates.  The input carries each per-pass best date together with its
total score.  Stated separately so it can be compared with the
source-derived `vote_dates`, which receives the dates only. -/
def vote_spec (l : List (Date × ℚ)) : Option Date :=
  let ds := firstKeys (l.map (fun e => e.1))
  let cnt := fun d => (l.map (fun e => e.1)).count d
  let m := ds.foldl (fun a d => max a (cnt d)) 0
  let tied := ds.filter (fun d => decide (cnt d = m))
  let score := fun d => (l.filter (fun e => decide (e.1 = d))).foldl (fun a e => max a e.2) 0
  tied.foldl
    (fun best d =>
      match best with
      | none => some d
      | some b => if score b < score d then some d else best)
    none

/-- Python whitespace, the character set stripped by `str.strip()`. -/
def isPyWhitespace (c : Char) : Bool :=
  c = ' ' || c = '\t' || c = '\n' || c = '\r' || c = '\x0b' || c = '\x0c'

/-- Python `str.strip()` on a character list. -/
def pyStrip (cs : List Char) : List Char :=
  ((cs.dropWhile isPyWhitespace).reverse.dropWhile isPyWhitespace).reverse

/-- ASCII letter test, modelling the regex class `[A-Z]` under
`re.IGNORECASE` (the source operates on ASCII OCR text). -/
def isAsciiLetter (c : Char) : Bool :=
  ('A' ≤ c && c ≤ 'Z') || ('a' ≤ c && c ≤ 'z')

/-- Word character, modelling the regex class `\w` on ASCII input. -/
def isWordChar (c : Char) : Bool :=
  c.isDigit || isAsciiLetter c || c = '_'

/-- Maximal runs of characters satisfying `p`, as returned by
`re.findall` with the patterns `\d+` and `[A-Z]+`; `cur` accumulates the
current run in reverse. -/
def runsAux (p : Char → Bool) : List Char → List Char → List (List Char)
  | cur, [] => if cur.isEmpty then [] else [cur.reverse]
  | cur, c :: cs =>
    if p c then runsAux p (c :: cur) cs
    else if cur.isEmpty then runsAux p [] cs
    else cur.reverse :: runsAux p [] cs

/-- All maximal runs of characters satisfying `p`. -/
def runsOf (p : Char → Bool) (cs : List Char) : List (List Char) :=
  runsAux p [] cs

/-- Deduplication keeping first occurrences.  The source computes
`list(set(separators))`, whose iteration order Python leaves unspecified;
first-occurrence order is one concrete choice, and no result proved below
depends on it. -/
def dedupGo (seen : List Char) : List Char → List Char
  | [] => []
  | c :: cs => if c ∈ seen then dedupGo seen cs else c :: dedupGo (seen ++ [c]) cs

/-- Separator set of `analyze_date_structure` as a list. -/
def dedupFirst (cs : List Char) : List Char :=
  dedupGo [] cs

/-- Characters escaped by Python's `re.escape` (Python ≥ 3.7). -/
def pySpecialChars : List Char :=
  ['(', ')', '[', ']', '\x7b', '\x7d', '?', '*', '+', '-', '|', '^', '$',
   '\\', '.', '&', '~', '#', ' ', '\t', '\n', '\r', '\x0b', '\x0c']

/-- Escape of a single character under `re.escape`. -/
def pyEscapeChar (c : Char) : List Char :=
  if c ∈ pySpecialChars then ['\\', c] else [c]

/-- Python's `re.escape`. -/
def pyEscape (cs : List Char) : List Char :=
  cs.flatMap pyEscapeChar

/-- Scanner for `replaceFirst`, assuming a nonempty target. -/
def replaceFirstGo (target rep : List Char) : List Char → List Char
  | [] => []
  | c :: cs =>
    if target.isPrefixOf (c :: cs) then rep ++ (c :: cs).drop target.length
    else c :: replaceFirstGo target rep cs

/-- Python `hay.replace(target, rep, 1)`: replace the leftmost occurrence
only.  The replacement text is not rescanned. -/
def replaceFirst (hay target rep : List Char) : List Char :=
  if target.isEmpty then rep ++ hay else replaceFirstGo target rep hay

/-- Scanner for `replaceAll`; the `Nat` argument counts characters still to
be skipped because they were consumed by the previous replacement, so
inserted text is never rescanned within one call, matching `str.replace`. -/
def replaceAllGo (target rep : List Char) : Nat → List Char → List Char
  | _, [] => []
  | skip + 1, _ :: cs => replaceAllGo target rep skip cs
  | 0, c :: cs =>
    if target.isPrefixOf (c :: cs) then
      rep ++ replaceAllGo target rep (target.length - 1) cs
    else c :: replaceAllGo target rep 0 cs

/-- Python `hay.replace(target, rep)` with a nonempty target (the only case
the source exercises: targets are escaped separator characters). -/
def replaceAll (hay target rep : List Char) : List Char :=
  if target.isEmpty then hay else replaceAllGo target rep 0 hay

/-- Python substring test `target in hay`. -/
def containsSub : List Char → List Char → Bool
  | [], target => target.isEmpty
  | c :: cs, target => target.isPrefixOf (c :: cs) || containsSub cs target

/-- Numeric value of a digit string, as computed by Python's `int`. -/
def digitsToNat (cs : List Char) : Nat :=
  cs.foldl (fun a c => a * 10 + (c.toNat - 48)) 0

/-- The ASCII digit character for a digit value. -/
def digitChar (n : Nat) : Char :=
  Char.ofNat (48 + n)

/-- The string made of the given digit values. -/
def digitString (ds : List Nat) : String :=
  String.mk (ds.map digitChar)

/-- Mutable state of `DatePatternLearner` (pattern_learner.py lines 23-26):
the learned pattern list and the usage `Counter`, the latter modelled as an
association list with unique keys in insertion order, Python-dict style. -/
structure LearnerState where
  learned_patterns : List String
  pattern_usage : List (String × Nat)
deriving DecidableEq

/-- Counter read with default 0 (`Counter.__getitem__` / `dict.get(k, 0)`). -/
def usageGet (u : List (String × Nat)) (k : String) : Nat :=
  match u.find? (fun e => e.1 == k) with
  | some e => e.2
  | none => 0

/-- Counter write (`c[k] = v`): update in place or append a new key. -/
def usageSet : List (String × Nat) → String → Nat → List (String × Nat)
  | [], k, v => [(k, v)]
  | e :: rest, k, v =>
    if e.1 = k then (e.1, v) :: rest else e :: usageSet rest k v

/-- Counter increment (`c[k] += 1`). -/
def usageInc (u : List (String × Nat)) (k : String) : List (String × Nat) :=
  usageSet u k (usageGet u k + 1)

/-- JSON values as produced and consumed by `json.dump` / `json.load` for
the pattern store; the textual serialisation performed by the `json`
library is an external bijection on this abstract syntax and is not
re-modelled. -/
inductive JsonVal where
  | jstr (s : String)
  | jnum (n : Nat)
  | jarr (elems : List JsonVal)
  | jobj (fields : List (String × JsonVal))

/-- Python `data.get(k)` on a decoded JSON object. -/
def jsonGet : JsonVal → String → Option JsonVal
  | .jobj fields, k => (fields.find? (fun f => f.1 == k)).map (fun f => f.2)
  | _, _ => none

/-- The store file name (pattern_learner.py line 16). -/
def LEARNED_PATTERNS_FILE : String :=
  "learned_date_patterns.json"

/-- The record written by `save_learned_patterns` (pattern_learner.py lines
46-50): patterns, usage map and timestamp. -/
def save_learned_patterns_data (st : LearnerState) (ts : String) : JsonVal :=
  .jobj [("patterns", .jarr (st.learned_patterns.map JsonVal.jstr)),
         ("usage", .jobj (st.pattern_usage.map (fun e => (e.1, JsonVal.jnum e.2)))),
         ("last_updated", .jstr ts)]

/-- String elements of a decoded JSON array (the store holds only strings). -/
def decodeStrElems (es : List JsonVal) : List String :=
  es.filterMap (fun e => match e with | .jstr s => some s | _ => none)

/-- `data.get('patterns', [])` of `load_learned_patterns`
(pattern_learner.py line 34). -/
def decodePatterns : Option JsonVal → List String
  | some (.jarr es) => decodeStrElems es
  | _ => []

/-- Numeric fields of a decoded JSON object (the usage map holds counts). -/
def decodeUsageFields (fs : List (String × JsonVal)) : List (String × Nat) :=
  fs.filterMap (fun f => match f.2 with | .jnum n => some (f.1, n) | _ => none)

/-- `Counter(data.get('usage', \x7b\x7d))` of `load_learned_patterns`
(pattern_learner.py line 35). -/
def decodeUsage : Option JsonVal → List (String × Nat)
  | some (.jobj fs) => decodeUsageFields fs
  | _ => []

/-- Embedding of `load_learned_patterns` (pattern_learner.py lines 28-41)
applied to the decoded contents of the store file. -/
def load_learned_patterns_data (j : JsonVal) : LearnerState :=
  { learned_patterns := decodePatterns (jsonGet j "patterns"),
    pattern_usage := decodeUsage (jsonGet j "usage") }

/-- File-system operations a persistence step may perform. -/
inductive FsOp where
  | write (path : String) (data : JsonVal)
  | rename (src dst : String)

/-- Whether a file-system operation is a rename. -/
def FsOp.isRenameOp : FsOp → Bool
  | .rename _ _ => true
  | _ => false

/-- File-system trace of `save_learned_patterns` (pattern_learner.py lines
43-55): a single direct `open(LEARNED_PATTERNS_FILE, 'w')` + `json.dump`,
i.e. one write to the store path. -/
def save_learned_patterns_ops (st : LearnerState) (ts : String) : List FsOp :=
  [FsOp.write LEARNED_PATTERNS_FILE (save_learned_patterns_data st ts)]

/-- Structure record produced by `analyze_date_structure`
(pattern_learner.py lines 101-138). -/
structure DateStructure where
  original : List Char
  has_digits : Bool
  has_letters : Bool
  digit_groups : List (List Char)
  letter_groups : List (List Char)
  separators : List Char
  length : Nat
  digit_count : Nat
  letter_count : Nat

/-- Embedding of `analyze_date_structure` (pattern_learner.py lines
101-138): strips the candidate, requires at least one digit, and records
digit runs, letter runs and the separator character set. -/
def analyze_date_structure (candidate : String) : Option DateStructure :=
  let ds := pyStrip candidate.data
  let has_digits := ds.any Char.isDigit
  let has_letters := ds.any isAsciiLetter
  if has_digits = false then none
  else
    let digit_groups := runsOf Char.isDigit ds
    let letter_groups := runsOf isAsciiLetter ds
    let separators := dedupFirst (ds.filter (fun c => !(isWordChar c)))
    some { original := ds, has_digits := has_digits, has_letters := has_letters,
           digit_groups := digit_groups, letter_groups := letter_groups,
           separators := separators, length := ds.length,
           digit_count := digit_groups.length,
           letter_count := letter_groups.length }

/-- Replacement for digit runs of length at most 2:  `(\d{1,2})`. -/
def digitPat12 : List Char :=
  "(\\d\x7b1,2\x7d)".data

/-- Replacement for digit runs of length exactly 4:  `(\d{4})`. -/
def digitPat4 : List Char :=
  "(\\d\x7b4\x7d)".data

/-- Replacement for other digit runs:  `(\d{2,4})`. -/
def digitPat24 : List Char :=
  "(\\d\x7b2,4\x7d)".data

/-- Month-name alternation capture group (pattern_learner.py line 171). -/
def monthAltPat : List Char :=
  "(JAN|FEB|MAR|APR|MAY|JUN|JUL|AUG|SEP|SEPT|OCT|NOV|DEC)".data

/-- Flexible separator class (pattern_learner.py line 185). -/
def sepClassPat : List Char :=
  "\\s*[\\/\\-\\.\\s]\\s*".data

/-- Regex word boundary `\b`. -/
def wordBoundary : List Char :=
  "\\b".data

/-- Embedding of `generate_regex_from_structure` (pattern_learner.py lines
140-196): escape the original, replace the first occurrence of each digit
run by a length-appropriate numeric capture group, the first occurrence of
each uppercased 3-4-letter run by the month alternation, every standard
separator character by the flexible separator class, and wrap in word
boundaries.  The body raises no exception, so the `try` wrapper never
returns `None`. -/
def generate_regex_from_structure (stc : DateStructure) : List Char :=
  let e0 := pyEscape stc.original
  let e1 := stc.digit_groups.foldl
    (fun e g =>
      if g.length ≤ 2 then replaceFirst e (pyEscape g) digitPat12
      else if g.length = 4 then replaceFirst e (pyEscape g) digitPat4
      else replaceFirst e (pyEscape g) digitPat24)
    e0
  let e2 := stc.letter_groups.foldl
    (fun e g =>
      if g.length = 3 ∨ g.length = 4 then
        replaceFirst e (pyEscape (g.map Char.toUpper)) monthAltPat
      else e)
    e1
  let e3 := stc.separators.foldl
    (fun e sep =>
      if sep = '-' ∨ sep = '/' ∨ sep = '.' ∨ sep = ' ' then
        replaceAll e (pyEscapeChar sep) sepClassPat
      else e)
    e2
  wordBoundary ++ e3 ++ wordBoundary

/-- Embedding of `_validate_pattern` (pattern_learner.py lines 236-254):
length at least 10, contains `(`, contains the two-character sequence `\d`,
and compiles; regex compilation is performed by the external `re` engine,
passed in as `compiles`. -/
def validate_pattern (compiles : String → Bool) (pattern : String) : Bool :=
  if pattern.length < 10 then false
  else if containsSub pattern.data ['('] = false then false
  else if containsSub pattern.data ['\\', 'd'] = false then false
  else compiles pattern

/-- The pattern `learn_from_candidate` synthesizes from a candidate before
gating it: analysis followed by generation. -/
def synthesized_pattern (candidate : String) : Option String :=
  (analyze_date_structure candidate).map
    (fun stc => String.mk (generate_regex_from_structure stc))

/-- Embedding of `learn_from_candidate` (pattern_learner.py lines 198-234):
returns the source's boolean result, the updated learner state, and the
file-system trace of the persistence it performs (`save_learned_patterns`
is invoked exactly on the append path).  `ts` is the external
`datetime.now().isoformat()` timestamp. -/
def learn_from_candidate (compiles : String → Bool) (ts : String)
    (st : LearnerState) (candidate : String) : Bool × LearnerState × List FsOp :=
  match analyze_date_structure candidate with
  | none => (false, st, [])
  | some stc =>
    let new_pattern := String.mk (generate_regex_from_structure stc)
    if new_pattern = "" then (false, st, [])
    else if validate_pattern compiles new_pattern = false then (false, st, [])
    else if new_pattern ∈ st.learned_patterns then
      (false, { st with pattern_usage := usageInc st.pattern_usage new_pattern }, [])
    else
      let st' : LearnerState :=
        { learned_patterns := st.learned_patterns ++ [new_pattern],
          pattern_usage := usageSet st.pattern_usage new_pattern 1 }
      (true, st', save_learned_patterns_ops st' ts)

/-- Embedding of `prune_unused_patterns` (pattern_learner.py lines 264-276):
keep patterns whose usage is at least `min_usage`; persist exactly when at
least one pattern was removed. -/
def prune_unused_patterns (ts : String) (st : LearnerState) (min_usage : Nat) :
    LearnerState × List FsOp :=
  let kept := st.learned_patterns.filter
    (fun p => decide (min_usage ≤ usageGet st.pattern_usage p))
  let st' : LearnerState := { st with learned_patterns := kept }
  if kept.length < st.learned_patterns.length then
    (st', save_learned_patterns_ops st' ts)
  else (st', [])

/-- A scored candidate as accumulated by the matching loop of `find_date`
(extract_date.py lines 148-154). -/
structure DateCandidate where
  date : Date
  score : ℚ
  text : String
  position : Nat
  pattern_index : Nat
deriving DecidableEq

/-- Best-candidate selection of `find_date` (extract_date.py lines
181-183): a stable descending sort by score followed by taking the head,
i.e. the first candidate attaining the maximal score. -/
def pickBestCand : DateCandidate → List DateCandidate → DateCandidate
  | b, [] => b
  | b, c :: cs => pickBestCand (if b.score < c.score then c else b) cs

/-- `candidates.sort(key=score, reverse=True); candidates[0]` on a possibly
empty list. -/
def best_candidate : List DateCandidate → Option DateCandidate
  | [] => none
  | c :: cs => some (pickBestCand c cs)

/-- The learning loop of `find_date` (extract_date.py lines 171-175): try
each detected candidate in order, threading learner-state mutations of
failed attempts, and stop at the first successful learn. -/
def learnLoop (compiles : String → Bool) (ts : String) :
    LearnerState → List String → Bool × LearnerState
  | st, [] => (false, st)
  | st, c :: cs =>
    match learn_from_candidate compiles ts st c with
    | (true, st', _) => (true, st')
    | (false, st', _) => learnLoop compiles ts st' cs

/-- Fuel-indexed embedding of `find_date` (extract_date.py lines 102-186).
The candidate-collection loop over compiled regexes (lines 111-164) and the
heuristic detector `detect_potential_date_strings` are driven by the
external `re` engine and are passed in as `collect` and `detect`; the
recursive retry at line 175 consumes one unit of fuel, so fuel adequacy is
exactly termination of the source recursion.  `none` means the fuel ran
out. -/
def find_date_fuel (collect : LearnerState → String → List DateCandidate)
    (detect : String → List String) (compiles : String → Bool) (ts : String) :
    Nat → LearnerState → String → Bool → Option (Option Date × LearnerState)
  | 0, _, _, _ => none
  | fuel + 1, st, text, enable_learning =>
    if (pyStrip text.data).isEmpty then some (none, st)
    else
      let candidates := collect st text
      if candidates.isEmpty && enable_learning then
        match learnLoop compiles ts st (detect text) with
        | (true, st') =>
          find_date_fuel collect detect compiles ts fuel st' text false
        | (false, st') => some (none, st')
      else if candidates.isEmpty then some (none, st)
      else some ((best_candidate candidates).map (fun c => c.date), st)

/-- Case-insensitive 3-letter Spanish month-code lookup of strategy 2 of
`parse_date_robust` (extract_date.py lines 268-274): the regex alternation
`(ENE|FEB|MAR|ABR|MAY|JUN|JUL|AGO|SEP|OCT|NOV|DIC)` under `re.IGNORECASE`,
composed with the `month_map` lookup. -/
def monthCode (a b c : Char) : Option Nat :=
  let k := [a.toUpper, b.toUpper, c.toUpper]
  if k = ['E', 'N', 'E'] then some 1
  else if k = ['F', 'E', 'B'] then some 2
  else if k = ['M', 'A', 'R'] then some 3
  else if k = ['A', 'B', 'R'] then some 4
  else if k = ['M', 'A', 'Y'] then some 5
  else if k = ['J', 'U', 'N'] then some 6
  else if k = ['J', 'U', 'L'] then some 7
  else if k = ['A', 'G', 'O'] then some 8
  else if k = ['S', 'E', 'P'] then some 9
  else if k = ['O', 'C', 'T'] then some 10
  else if k = ['N', 'O', 'V'] then some 11
  else if k = ['D', 'I', 'C'] then some 12
  else none

/-- The year group `(\d{2,4})` of strategy 2: a greedy run of 2 to 4 digits
with nothing following it in the pattern. -/
def yearGroup (cs : List Char) : Option Nat :=
  let run := (cs.takeWhile Char.isDigit).take 4
  if 2 ≤ run.length then some (digitsToNat run) else none

/-- Month and year of a strategy-2 match starting at the given suffix. -/
def s2tail (cs : List Char) : Option (Nat × Nat) :=
  match cs with
  | a :: b :: c :: rest =>
    match monthCode a b c with
    | some m =>
      match yearGroup rest with
      | some y => some (m, y)
      | none => none
    | none => none
  | _ => none

/-- Digit value of an ASCII digit character. -/
def digitVal (c : Char) : Nat :=
  c.toNat - 48

/-- Groups of `re.match(r'(\d{1,2})(ENE|...)(\d{2,4})', s)`: the day group
is greedy, taking two digits when the remainder still matches and
backtracking to one digit otherwise. -/
def s2groups : List Char → Option (Nat × Nat × Nat)
  | a :: b :: rest =>
    if a.isDigit then
      if b.isDigit then
        match s2tail rest with
        | some (m, y) => some (digitVal a * 10 + digitVal b, m, y)
        | none =>
          match s2tail (b :: rest) with
          | some (m, y) => some (digitVal a, m, y)
          | none => none
      else
        match s2tail (b :: rest) with
        | some (m, y) => some (digitVal a, m, y)
        | none => none
    else none
  | _ => none

/-- Python `datetime.datetime(y, m, d)` as a partial constructor: `some`
exactly when the call does not raise. -/
def mkPyDatetime (y m d : Nat) : Option Date :=
  if 1 ≤ y ∧ y ≤ 9999 ∧ 1 ≤ m ∧ m ≤ 12 ∧ 1 ≤ d ∧ d ≤ daysInMonth y m then
    some ⟨y, m, d⟩
  else none

/-- Two-digit year pivot of strategy 2 (extract_date.py lines 278-279):
00-49 map to the 2000s, 50-99 to the 1900s. -/
def yearPivot (y : Nat) : Nat :=
  if y < 100 then (if y < 50 then y + 2000 else y + 1900) else y

/-- Strategy 2 of `parse_date_robust` (extract_date.py lines 266-282):
manual parse of compact `DDMMMYY` dates with Spanish month codes; a raising
`datetime` constructor is caught and yields no result. -/
def strategy2 (s : String) : Option Date :=
  match s2groups s.data with
  | some (day, m, y0) => mkPyDatetime (yearPivot y0) m day
  | none => none

/-- Year of the `YYYYMMDD` grouping: `int(date_str[:4])`. -/
def y8 (s : String) : Nat := digitsToNat (s.data.take 4)

/-- Month of the `YYYYMMDD` grouping: `int(date_str[4:6])`. -/
def m8 (s : String) : Nat := digitsToNat ((s.data.drop 4).take 2)

/-- Day of the `YYYYMMDD` grouping: `int(date_str[6:8])`. -/
def d8 (s : String) : Nat := digitsToNat ((s.data.drop 6).take 2)

/-- Day of the `DDMMYYYY` grouping: `int(date_str[:2])`. -/
def d8r (s : String) : Nat := digitsToNat (s.data.take 2)

/-- Month of the `DDMMYYYY` grouping: `int(date_str[2:4])`. -/
def m8r (s : String) : Nat := digitsToNat ((s.data.drop 2).take 2)

/-- Year of the `DDMMYYYY` grouping: `int(date_str[4:8])`. -/
def y8r (s : String) : Nat := digitsToNat ((s.data.drop 4).take 4)

/-- Acceptance condition of one 8-digit grouping (extract_date.py lines
288-289 and 296-297): the source's range checks plus a non-raising
`datetime(y, m, d)` constructor, i.e. a structurally valid calendar date
with year in [1900, 2100]. -/
def structurally_valid (y m d : Nat) : Bool :=
  decide (1900 ≤ y ∧ y ≤ 2100 ∧ 1 ≤ m ∧ m ≤ 12 ∧ 1 ≤ d ∧ d ≤ 31
    ∧ d ≤ daysInMonth y m)

/-- Strategy 3 of `parse_date_robust` (extract_date.py lines 284-300):
8-digit disambiguation, `YYYYMMDD` first, then `DDMMYYYY`. -/
def parse8digit (s : String) : Option Date :=
  if s.length = 8 ∧ s.data.all Char.isDigit then
    if structurally_valid (y8 s) (m8 s) (d8 s) then some ⟨y8 s, m8 s, d8 s⟩
    else if structurally_valid (y8r s) (m8r s) (d8r s) then
      some ⟨y8r s, m8r s, d8r s⟩
    else none
  else none

/-- Embedding of `parse_date_robust` (extract_date.py lines 241-302): the
external `dateparser` call (strategy 1) is passed in as `dateparse1`;
strategies 2 and 3 are the source's manual parsers. -/
def parse_date_robust (dateparse1 : String → Option Date) (s : String) :
    Option Date :=
  if s = "" then none
  else
    match dateparse1 s with
    | some d => some d
    | none =>
      match strategy2 s with
      | some d => some d
      | none => parse8digit s

/-- Modelled from the spec: the claimed atomic-persistence trace shape — a
write to a temporary file followed by a rename of that temporary file over
the store file.  Stated separately so it can be compared with the
source-derived trace `save_learned_patterns_ops`. -/
def isAtomicTrace (ops : List FsOp) (target : String) : Bool :=
  match ops with
  | [FsOp.write tmp _, FsOp.rename src dst] =>
    tmp == src && dst == target && !(tmp == target)
  | _ => false

/-- The pattern synthesized by `learn_from_candidate` from the candidate
`"15JUN26"`; used as a concrete input by several witnesses. -/
def learnedPat15 : String :=
  "\\b(\\d\x7b1,2\x7d)(JAN|FEB|MAR|APR|MAY|JUN|JUL|AUG|SEP|SEPT|OCT|NOV|DEC)(\\d\x7b1,2\x7d)\\b"

/-- Helper: a date strictly below the -3-year bound is rejected with score 0
(first branch of `validate_date_for_products`). -/
theorem validate_false_low {d : Int} (h : years_from_now d < -3) :
    validate_date_for_products d = (false, 0) := by
  simp only [validate_date_for_products]
  rw [if_pos h]

/-- Helper: a date whose years-from-now offset lies in [-3, +10] is marked
valid. -/
theorem validate_fst_true {d : Int}
    (h1 : -3 ≤ years_from_now d) (h2 : years_from_now d ≤ 10) :
    (validate_date_for_products d).1 = true := by
  simp only [validate_date_for_products]
  rcases le_or_lt (-1 : ℚ) (years_from_now d) with hge | hlt
  · rcases le_or_lt (years_from_now d) 5 with h5 | h5
    · rw [if_neg (by linarith), if_neg (by linarith), if_pos ⟨hge, h5⟩]
    · rw [if_neg (by linarith), if_neg (by linarith),
          if_neg (by rintro ⟨-, hb⟩; linarith),
          if_neg (by rintro ⟨-, hb⟩; linarith),
          if_pos ⟨h5, h2⟩]
  · rw [if_neg (by linarith), if_neg (by linarith),
        if_neg (by rintro ⟨ha, -⟩; linarith),
        if_pos ⟨h1, hlt⟩]

/-- Helper: the plausibility tiers of `validate_date_for_products` on the
accepted window [-3, +10]. -/
theorem validate_snd_tier {d : Int}
    (h1 : -3 ≤ years_from_now d) (h2 : years_from_now d ≤ 10) :
    (validate_date_for_products d).2 =
      (if -1 ≤ years_from_now d ∧ years_from_now d ≤ 5 then 1
       else if years_from_now d < -1 then 0.7 else 0.6) := by
  simp only [validate_date_for_products]
  rcases le_or_lt (-1 : ℚ) (years_from_now d) with hge | hlt
  · rcases le_or_lt (years_from_now d) 5 with h5 | h5
    · rw [if_neg (by linarith), if_neg (by linarith), if_pos ⟨hge, h5⟩,
          if_pos ⟨hge, h5⟩]
    · rw [if_neg (by linarith), if_neg (by linarith),
          if_neg (by rintro ⟨-, hb⟩; linarith),
          if_neg (by rintro ⟨-, hb⟩; linarith),
          if_pos ⟨h5, h2⟩,
          if_neg (by rintro ⟨-, hb⟩; linarith),
          if_neg (by linarith)]
  · rw [if_neg (by linarith), if_neg (by linarith),
        if_neg (by rintro ⟨ha, -⟩; linarith),
        if_pos ⟨h1, hlt⟩,
        if_neg (by rintro ⟨ha, -⟩; linarith),
        if_pos hlt]

/-- C1 counterexample: a `ParsedDate` exactly 4 calendar years in the past
(2022-10-12 seen at reference instant 2026-10-12, a difference of -1461
days) is marked INVALID by `validate_date_for_products`, contradicting the
claim that it must be marked valid: `-1461 / 365.25 ≈ -4.0 < -3`. -/
theorem C1_counterexample :
    validate_date_for_products
      (toOrdinal ⟨2022, 10, 12⟩ - toOrdinal ⟨2026, 10, 12⟩) = (false, 0) := by
  have hord : toOrdinal ⟨2022, 10, 12⟩ - toOrdinal ⟨2026, 10, 12⟩ = -1461 := by
    decide
  rw [hord]
  exact validate_false_low (by simp only [years_from_now]; norm_num)

/-- C1 (amended): at any reference instant, a `ParsedDate` exactly 4 years
in the past (datetime difference between -1462 and -1460 days, covering
leap-day counts and the flooring of a nonzero time of day) is marked
invalid; one exactly 9 years in the future (3286 to 3288 days) is marked
valid; and one 3 years plus 1 day in the past (-1098 to -1096 days) is
marked invalid. -/
theorem C1_amended :
    ∀ d : Int,
      ((-1462 ≤ d ∧ d ≤ -1460) → (validate_date_for_products d).1 = false)
      ∧ ((3286 ≤ d ∧ d ≤ 3288) → (validate_date_for_products d).1 = true)
      ∧ ((-1098 ≤ d ∧ d ≤ -1096) → (validate_date_for_products d).1 = false) := by
  intro d
  refine ⟨?_, ?_, ?_⟩
  · rintro ⟨h1, h2⟩
    have hlow : years_from_now d < -3 := by
      simp only [years_from_now]
      rw [div_lt_iff₀ (by norm_num : (0 : ℚ) < 365.25)]
      have : (d : ℚ) ≤ -1460 := by exact_mod_cast h2
      norm_num
      linarith
    rw [validate_false_low hlow]
  · rintro ⟨h1, h2⟩
    refine validate_fst_true ?_ ?_
    · simp only [years_from_now]
      rw [le_div_iff₀ (by norm_num : (0 : ℚ) < 365.25)]
      have : (3286 : ℚ) ≤ (d : ℚ) := by exact_mod_cast h1
      norm_num
      linarith
    · simp only [years_from_now]
      rw [div_le_iff₀ (by norm_num : (0 : ℚ) < 365.25)]
      have : (d : ℚ) ≤ 3288 := by exact_mod_cast h2
      norm_num
      linarith
  · rintro ⟨h1, h2⟩
    have hlow : years_from_now d < -3 := by
      simp only [years_from_now]
      rw [div_lt_iff₀ (by norm_num : (0 : ℚ) < 365.25)]
      have : (d : ℚ) ≤ -1096 := by exact_mod_cast h2
      norm_num
      linarith
    rw [validate_false_low hlow]

/-- C1 witness: the amended theorem applied at the concrete datetime
differences of 2022-10-12, 2035-10-12 and 2023-10-11 from the reference
instant 2026-10-12. -/
theorem C1_witness :
    (validate_date_for_products
        (toOrdinal ⟨2022, 10, 12⟩ - toOrdinal ⟨2026, 10, 12⟩)).1 = false
    ∧ (validate_date_for_products
        (toOrdinal ⟨2035, 10, 12⟩ - toOrdinal ⟨2026, 10, 12⟩)).1 = true
    ∧ (validate_date_for_products
        (toOrdinal ⟨2023, 10, 11⟩ - toOrdinal ⟨2026, 10, 12⟩)).1 = false :=
  ⟨(C1_amended _).1 (by decide),
   (C1_amended _).2.1 (by decide),
   (C1_amended _).2.2 (by decide)⟩

/-- C8: for every datetime difference whose years-from-now offset lies in
[-3, +10], the validator marks the date valid and assigns plausibility 1.0
on [-1, +5], 0.7 on [-3, -1) and 0.6 on (+5, +10]; and the total score is
exactly 0.5 × plausibility + 0.3 × (1 − rank/total × 0.5) +
0.2 × (1 − offset/length × 0.3). -/
theorem C8_scoring :
    ∀ dd : Int,
      -3 ≤ years_from_now dd → years_from_now dd ≤ 10 →
      (validate_date_for_products dd).1 = true
      ∧ (validate_date_for_products dd).2 =
          (if -1 ≤ years_from_now dd ∧ years_from_now dd ≤ 5 then 1
           else if years_from_now dd < -1 then 0.7 else 0.6)
      ∧ ∀ (v : ℚ) (i n pos len : Nat),
          total_score v i n pos len =
            0.5 * v + 0.3 * (1 - ((i : ℚ) / (n : ℚ)) * 0.5)
              + 0.2 * (1 - ((pos : ℚ) / (len : ℚ)) * 0.3) := by
  intro dd h1 h2
  refine ⟨validate_fst_true h1 h2, validate_snd_tier h1 h2, ?_⟩
  intro v i n pos len
  simp only [total_score, pattern_score, position_score]
  ring

/-- C8 witness: the theorem applied at a zero day offset (a date equal to
the reference instant), with the score identity instantiated at concrete
arguments. -/
theorem C8_witness :
    (validate_date_for_products 0).1 = true
    ∧ (validate_date_for_products 0).2 =
        (if -1 ≤ years_from_now 0 ∧ years_from_now 0 ≤ 5 then 1
         else if years_from_now 0 < -1 then 0.7 else 0.6)
    ∧ total_score 1 2 20 5 100 =
        0.5 * 1 + 0.3 * (1 - ((2 : ℚ) / (20 : ℚ)) * 0.5)
          + 0.2 * (1 - ((5 : ℚ) / (100 : ℚ)) * 0.3) := by
  have hz : years_from_now 0 = 0 := by
    simp [years_from_now]
  have h := C8_scoring 0 (by rw [hz]; norm_num) (by rw [hz]; norm_num)
  exact ⟨h.1, h.2.1, h.2.2 1 2 20 5 100⟩

/-- C3 counterexample: a token with confidence exactly 30 is DROPPED by the
source filter (`if conf > 30`), while the claimed rule (confidence ≥ 30)
would retain it. -/
theorem C3_counterexample :
    collect_text_parts [("ABC", 30)] = []
    ∧ tokens_kept_spec [("ABC", 30)] = ["ABC"]
    ∧ pass_text [("ABC", 30)] = "" := by
  refine ⟨rfl, rfl, rfl⟩

/-- Helper: the token filtering loop equals a filter on strict confidence
followed by a projection. -/
theorem collect_text_parts_eq_filter :
    ∀ toks : List (String × Int),
      collect_text_parts toks =
        (toks.filter (fun t => decide ((30 : Int) < t.2))).map (fun t => t.1) := by
  intro toks
  induction toks with
  | nil => rfl
  | cons hd tl ih =>
    rcases hd with ⟨t, conf⟩
    by_cases h : (30 : Int) < conf
    · simp [collect_text_parts, List.filter, h, ih]
    · simp [collect_text_parts, List.filter, h, ih]

/-- C3 (amended): a token is included in the derived pass text if and only
if its confidence is STRICTLY greater than 30, and the retained tokens are
joined with single spaces in their original order. -/
theorem C3_amended :
    ∀ toks : List (String × Int),
      collect_text_parts toks =
        (toks.filter (fun t => decide ((30 : Int) < t.2))).map (fun t => t.1)
      ∧ pass_text toks =
          String.intercalate " "
            ((toks.filter (fun t => decide ((30 : Int) < t.2))).map (fun t => t.1))
      ∧ ∀ s : String,
          (s ∈ collect_text_parts toks ↔ ∃ c : Int, (s, c) ∈ toks ∧ 30 < c) := by
  intro toks
  refine ⟨collect_text_parts_eq_filter toks, ?_, ?_⟩
  · simp only [pass_text, collect_text_parts_eq_filter]
  · intro s
    rw [collect_text_parts_eq_filter]
    simp only [List.mem_map, List.mem_filter, decide_eq_true_eq]
    constructor
    · rintro ⟨⟨t, c⟩, ⟨hmem, hc⟩, rfl⟩
      exact ⟨c, hmem, hc⟩
    · rintro ⟨c, hmem, hc⟩
      exact ⟨(s, c), ⟨hmem, hc⟩, rfl⟩

/-- C3 witness: the amended characterisation applied to a concrete token
list containing confidences below, at and above the threshold. -/
theorem C3_witness :
    collect_text_parts [("A", 50), ("B", 30), ("C", 31)] =
      ([("A", (50 : Int)), ("B", 30), ("C", 31)].filter
          (fun t => decide ((30 : Int) < t.2))).map (fun t => t.1) :=
  (C3_amended [("A", 50), ("B", 30), ("C", 31)]).1

/-- C2 counterexample: with two passes producing distinct dates (one vote
each), the voting step of `process_image` selects the FIRST-encountered
date regardless of score, while the claimed tie-break (highest individual
total score among tied dates) selects the second, higher-scored date. -/
theorem C2_counterexample :
    vote_dates [⟨2026, 1, 1⟩, ⟨2027, 2, 2⟩] = some ⟨2026, 1, 1⟩
    ∧ vote_spec [(⟨2026, 1, 1⟩, (0 : ℚ)), (⟨2027, 2, 2⟩, (1 : ℚ))] =
        some ⟨2027, 2, 2⟩
    ∧ (⟨2026, 1, 1⟩ : Date) ≠ ⟨2027, 2, 2⟩ := by
  refine ⟨by decide, by decide, by decide⟩

/-- Helper: setting a usage-counter key reads back as the written value. -/
theorem usageGet_usageSet_self (u : List (String × Nat)) (k : String) (v : Nat) :
    usageGet (usageSet u k v) k = v := by
  induction u with
  | nil => simp [usageSet, usageGet, List.find?]
  | cons e rest ih =>
    by_cases h : e.1 = k
    · simp [usageSet, if_pos h, usageGet, List.find?, h]
    · simp only [usageSet, if_neg h, usageGet, List.find?]
      rw [show (e.1 == k) = false from beq_eq_false_iff_ne.mpr h]
      exact ih

/-- Helper: incrementing a usage-counter key adds one to its count. -/
theorem usageGet_usageInc (u : List (String × Nat)) (k : String) :
    usageGet (usageInc u k) k = usageGet u k + 1 :=
  usageGet_usageSet_self u k (usageGet u k + 1)

/-- Helper: a pattern accepted by `_validate_pattern` satisfies the four
acceptance conditions it checks. -/
theorem validate_pattern_eq_true {compiles : String → Bool} {p : String}
    (h : validate_pattern compiles p = true) :
    10 ≤ p.length ∧ containsSub p.data ['('] = true
      ∧ containsSub p.data ['\\', 'd'] = true ∧ compiles p = true := by
  simp only [validate_pattern] at h
  split_ifs at h with h1 h2 h3
  refine ⟨by omega, ?_, ?_, h⟩
  · cases hb : containsSub p.data ['('] with
    | true => rfl
    | false => exact absurd hb h2
  · cases hb : containsSub p.data ['\\', 'd'] with
    | true => rfl
    | false => exact absurd hb h3

/-- Helper: the empty pattern is rejected by `_validate_pattern`. -/
theorem validate_pattern_empty (compiles : String → Bool) :
    validate_pattern compiles "" = false := by
  rfl

/-- Helper: exhaustive description of the three outcomes of
`learn_from_candidate` — a fresh pattern is appended and persisted, an
already-known pattern only bumps its usage counter, or the candidate is
rejected and the state is untouched. -/
theorem learn_from_candidate_spec (compiles : String → Bool) (ts : String)
    (st : LearnerState) (cand : String) :
    (∃ p, synthesized_pattern cand = some p
      ∧ validate_pattern compiles p = true
      ∧ p ∉ st.learned_patterns
      ∧ learn_from_candidate compiles ts st cand =
          (true,
           ⟨st.learned_patterns ++ [p], usageSet st.pattern_usage p 1⟩,
           save_learned_patterns_ops
             ⟨st.learned_patterns ++ [p], usageSet st.pattern_usage p 1⟩ ts))
    ∨ (∃ p, synthesized_pattern cand = some p
      ∧ validate_pattern compiles p = true
      ∧ p ∈ st.learned_patterns
      ∧ learn_from_candidate compiles ts st cand =
          (false, ⟨st.learned_patterns, usageInc st.pattern_usage p⟩, []))
    ∨ (learn_from_candidate compiles ts st cand = (false, st, [])
      ∧ ∀ p, synthesized_pattern cand = some p →
          validate_pattern compiles p = false) := by
  cases hA : analyze_date_structure cand with
  | none =>
    refine Or.inr (Or.inr ⟨?_, ?_⟩)
    · simp [learn_from_candidate, hA]
    · intro p hp
      simp [synthesized_pattern, hA] at hp
  | some stc =>
    have hsyn : synthesized_pattern cand =
        some (String.mk (generate_regex_from_structure stc)) := by
      simp [synthesized_pattern, hA]
    by_cases h0 : String.mk (generate_regex_from_structure stc) = ""
    · refine Or.inr (Or.inr ⟨?_, ?_⟩)
      · simp only [learn_from_candidate, hA]
        rw [if_pos h0]
      · intro p hp
        rw [hsyn] at hp
        have hpe : p = String.mk (generate_regex_from_structure stc) :=
          (Option.some.inj hp).symm
        rw [hpe, h0]
        exact validate_pattern_empty compiles
    · by_cases h1 :
          validate_pattern compiles
            (String.mk (generate_regex_from_structure stc)) = false
      · refine Or.inr (Or.inr ⟨?_, ?_⟩)
        · simp only [learn_from_candidate, hA]
          rw [if_neg h0, if_pos h1]
        · intro p hp
          rw [hsyn] at hp
          have hpe : p = String.mk (generate_regex_from_structure stc) :=
            (Option.some.inj hp).symm
          rw [hpe]
          exact h1
      · have h1' : validate_pattern compiles
            (String.mk (generate_regex_from_structure stc)) = true := by
          cases hb : validate_pattern compiles
              (String.mk (generate_regex_from_structure stc)) with
          | true => rfl
          | false => exact absurd hb h1
        by_cases h2 :
            String.mk (generate_regex_from_structure stc) ∈ st.learned_patterns
        · refine Or.inr (Or.inl ⟨_, hsyn, h1', h2, ?_⟩)
          simp only [learn_from_candidate, hA]
          rw [if_neg h0, if_neg h1, if_pos h2]
        · refine Or.inl ⟨_, hsyn, h1', h2, ?_⟩
          simp only [learn_from_candidate, hA]
          rw [if_neg h0, if_neg h1, if_neg h2]

/-- Helper: decoding an encoded string array recovers the strings. -/
theorem decodeStrElems_map (ps : List String) :
    decodeStrElems (ps.map JsonVal.jstr) = ps := by
  induction ps with
  | nil => rfl
  | cons hd tl ih =>
    simp only [List.map_cons, decodeStrElems, List.filterMap_cons] at ih ⊢
    rw [ih]

/-- Helper: decoding an encoded usage object recovers the counts. -/
theorem decodeUsageFields_map (us : List (String × Nat)) :
    decodeUsageFields (us.map (fun e => (e.1, JsonVal.jnum e.2))) = us := by
  induction us with
  | nil => rfl
  | cons hd tl ih =>
    simp only [List.map_cons, decodeUsageFields, List.filterMap_cons] at ih ⊢
    rw [ih]

/-- C9: saving the pattern store and reloading the saved record reproduces
the identical pattern list and per-pattern usage counts.  The textual
JSON serialisation between `json.dump` and `json.load` is the external
`json` library's bijection on this abstract syntax. -/
theorem C9_round_trip (ps : List String) (us : List (String × Nat)) (ts : String) :
    load_learned_patterns_data (save_learned_patterns_data ⟨ps, us⟩ ts) = ⟨ps, us⟩ := by
  have h1 : jsonGet (save_learned_patterns_data ⟨ps, us⟩ ts) "patterns" =
      some (JsonVal.jarr (ps.map JsonVal.jstr)) := rfl
  have h2 : jsonGet (save_learned_patterns_data ⟨ps, us⟩ ts) "usage" =
      some (JsonVal.jobj (us.map (fun e => (e.1, JsonVal.jnum e.2)))) := rfl
  simp only [load_learned_patterns_data, h1, h2, decodePatterns, decodeUsage]
  rw [decodeStrElems_map, decodeUsageFields_map]

/-- C4 counterexample: the file-system trace of `save_learned_patterns` for
a concrete store is NOT of the claimed atomic write-to-temp-then-rename
shape — it is a single direct write to the store file. -/
theorem C4_counterexample :
    isAtomicTrace (save_learned_patterns_ops ⟨["p"], [("p", 1)]⟩ "T")
      LEARNED_PATTERNS_FILE = false := by
  rfl

/-- C4 (amended): every persistence of the pattern store — invoked on every
successful learn and on every prune that removes patterns — is a single
direct write of the encoded store to the store file; no temporary file is
written and no rename is performed, so a crash mid-write CAN leave a
truncated store. -/
theorem C4_amended :
    ∀ (compiles : String → Bool) (ts : String) (st : LearnerState)
      (cand : String) (mu : Nat),
      save_learned_patterns_ops st ts =
        [FsOp.write LEARNED_PATTERNS_FILE (save_learned_patterns_data st ts)]
      ∧ ((learn_from_candidate compiles ts st cand).1 = true →
          (learn_from_candidate compiles ts st cand).2.2 =
            save_learned_patterns_ops
              (learn_from_candidate compiles ts st cand).2.1 ts)
      ∧ ((prune_unused_patterns ts st mu).1.learned_patterns ≠
            st.learned_patterns →
          (prune_unused_patterns ts st mu).2 =
            save_learned_patterns_ops (prune_unused_patterns ts st mu).1 ts)
      ∧ (∀ op ∈ (learn_from_candidate compiles ts st cand).2.2,
          op.isRenameOp = false)
      ∧ (∀ op ∈ (prune_unused_patterns ts st mu).2, op.isRenameOp = false) := by
  intro compiles ts st cand mu
  refine ⟨rfl, ?_, ?_, ?_, ?_⟩
  · intro hb
    rcases learn_from_candidate_spec compiles ts st cand with
      ⟨p, _, _, _, he⟩ | ⟨p, _, _, _, he⟩ | ⟨he, _⟩
    · rw [he]
    · rw [he] at hb
      exact absurd hb (by simp)
    · rw [he] at hb
      exact absurd hb (by simp)
  · intro hne
    simp only [prune_unused_patterns] at hne ⊢
    by_cases hl :
        (st.learned_patterns.filter
          (fun p => decide (mu ≤ usageGet st.pattern_usage p))).length <
          st.learned_patterns.length
    · rw [if_pos hl]
    · rw [if_neg hl] at hne
      have hsub := List.filter_sublist
        (p := fun p => decide (mu ≤ usageGet st.pattern_usage p))
        (l := st.learned_patterns)
      have hlen := hsub.length_le
      have heq := hsub.eq_of_length (by omega)
      exact absurd heq hne
  · intro op hop
    rcases learn_from_candidate_spec compiles ts st cand with
      ⟨p, _, _, _, he⟩ | ⟨p, _, _, _, he⟩ | ⟨he, _⟩
    · rw [he] at hop
      simp only [save_learned_patterns_ops, List.mem_singleton] at hop
      rw [hop]
      rfl
    · rw [he] at hop
      simp at hop
    · rw [he] at hop
      simp at hop
  · intro op hop
    simp only [prune_unused_patterns] at hop
    by_cases hl :
        (st.learned_patterns.filter
          (fun p => decide (mu ≤ usageGet st.pattern_usage p))).length <
          st.learned_patterns.length
    · rw [if_pos hl] at hop
      simp only [save_learned_patterns_ops, List.mem_singleton] at hop
      rw [hop]
      rfl
    · rw [if_neg hl] at hop
      simp at hop

/-- C4 witness: the amended theorem applied to a successful concrete learn
(`"15JUN26"` learned into an empty store with an always-compiling regex
engine), whose persistence trace is the single direct write. -/
theorem C4_witness :
    (learn_from_candidate (fun _ => true) "T" ⟨[], []⟩ "15JUN26").2.2 =
      save_learned_patterns_ops
        (learn_from_candidate (fun _ => true) "T" ⟨[], []⟩ "15JUN26").2.1 "T" :=
  (C4_amended (fun _ => true) "T" ⟨[], []⟩ "15JUN26" 3).2.1 (by decide)

/-- C6: every pattern that `learn_from_candidate` appends satisfies the four
acceptance conditions as implemented by `_validate_pattern` — length at
least 10, contains a capture-group opener `(`, contains the digit-matching
token `\d`, and compiles under the external regex engine — and is recorded
with usage counter 1 and persisted immediately; a candidate whose
synthesized pattern fails validation leaves the pattern list unchanged. -/
theorem C6_learn_gate :
    ∀ (compiles : String → Bool) (ts : String) (st : LearnerState)
      (cand : String),
      (∀ p, p ∈ (learn_from_candidate compiles ts st cand).2.1.learned_patterns →
        p ∉ st.learned_patterns →
          validate_pattern compiles p = true
          ∧ 10 ≤ p.length
          ∧ containsSub p.data ['('] = true
          ∧ containsSub p.data ['\\', 'd'] = true
          ∧ compiles p = true
          ∧ usageGet (learn_from_candidate compiles ts st cand).2.1.pattern_usage p = 1
          ∧ (learn_from_candidate compiles ts st cand).2.2 =
              save_learned_patterns_ops
                (learn_from_candidate compiles ts st cand).2.1 ts)
      ∧ (∀ p, synthesized_pattern cand = some p →
          validate_pattern compiles p = false →
          (learn_from_candidate compiles ts st cand).2.1.learned_patterns =
            st.learned_patterns
          ∧ (learn_from_candidate compiles ts st cand).1 = false) := by
  intro compiles ts st cand
  rcases learn_from_candidate_spec compiles ts st cand with
    ⟨p, hs, hv, hnm, he⟩ | ⟨p, hs, hv, hm, he⟩ | ⟨he, hval⟩
  · constructor
    · intro q hq hqn
      rw [he] at hq
      rcases List.mem_append.mp hq with h | h
      · exact absurd h hqn
      · have hqp : q = p := List.mem_singleton.mp h
        subst hqp
        have hc := validate_pattern_eq_true hv
        rw [he]
        exact ⟨hv, hc.1, hc.2.1, hc.2.2.1, hc.2.2.2,
          usageGet_usageSet_self _ _ _, rfl⟩
    · intro q hs' hv'
      rw [hs] at hs'
      have hqp : q = p := (Option.some.inj hs').symm
      subst hqp
      exact absurd hv (by rw [hv']; simp)
  · constructor
    · intro q hq hqn
      rw [he] at hq
      exact absurd hq hqn
    · intro q hs' hv'
      rw [hs] at hs'
      have hqp : q = p := (Option.some.inj hs').symm
      subst hqp
      exact absurd hv (by rw [hv']; simp)
  · constructor
    · intro q hq hqn
      rw [he] at hq
      exact absurd hq hqn
    · intro q hs' hv'
      rw [he]
      exact ⟨rfl, rfl⟩

/-- C6 witness: the gate theorem applied to the concrete learn of
`"15JUN26"` into an empty store, whose synthesized pattern is
`learnedPat15`. -/
theorem C6_witness :
    validate_pattern (fun _ => true) learnedPat15 = true
    ∧ 10 ≤ learnedPat15.length
    ∧ containsSub learnedPat15.data ['('] = true
    ∧ containsSub learnedPat15.data ['\\', 'd'] = true
    ∧ usageGet
        (learn_from_candidate (fun _ => true) "T" ⟨[], []⟩ "15JUN26").2.1.pattern_usage
        learnedPat15 = 1 := by
  have h := (C6_learn_gate (fun _ => true) "T" ⟨[], []⟩ "15JUN26").1
    learnedPat15 (by decide) (by decide)
  exact ⟨h.1, h.2.1, h.2.2.1, h.2.2.2.1, h.2.2.2.2.2.1⟩

/-- C10: learning a candidate whose synthesized pattern is already stored
leaves the pattern list unchanged, increments that pattern's usage counter
by one and returns `False`; and both learning and pruning preserve
distinctness of the stored learned patterns. -/
theorem C10_no_duplicates :
    ∀ (compiles : String → Bool) (ts : String) (st : LearnerState)
      (cand : String) (p : String) (mu : Nat),
      (synthesized_pattern cand = some p →
        validate_pattern compiles p = true →
        p ∈ st.learned_patterns →
          (learn_from_candidate compiles ts st cand).1 = false
          ∧ (learn_from_candidate compiles ts st cand).2.1.learned_patterns =
              st.learned_patterns
          ∧ usageGet (learn_from_candidate compiles ts st cand).2.1.pattern_usage p =
              usageGet st.pattern_usage p + 1)
      ∧ (st.learned_patterns.Nodup →
          (learn_from_candidate compiles ts st cand).2.1.learned_patterns.Nodup
          ∧ (prune_unused_patterns ts st mu).1.learned_patterns.Nodup) := by
  intro compiles ts st cand p mu
  constructor
  · intro hs0 hv0 hm0
    rcases learn_from_candidate_spec compiles ts st cand with
      ⟨q, hs, hv, hnm, he⟩ | ⟨q, hs, hv, hm, he⟩ | ⟨he, hval⟩
    · rw [hs0] at hs
      have hqp : q = p := (Option.some.inj hs).symm
      subst hqp
      exact absurd hm0 hnm
    · rw [hs0] at hs
      have hqp : q = p := (Option.some.inj hs).symm
      subst hqp
      rw [he]
      exact ⟨rfl, rfl, usageGet_usageInc _ _⟩
    · have := hval p hs0
      rw [hv0] at this
      exact absurd this (by simp)
  · intro hnd
    have hprune : (prune_unused_patterns ts st mu).1.learned_patterns.Nodup := by
      simp only [prune_unused_patterns]
      by_cases hl :
          (st.learned_patterns.filter
            (fun q => decide (mu ≤ usageGet st.pattern_usage q))).length <
            st.learned_patterns.length
      · rw [if_pos hl]
        exact hnd.filter _
      · rw [if_neg hl]
        exact hnd.filter _
    refine ⟨?_, hprune⟩
    rcases learn_from_candidate_spec compiles ts st cand with
      ⟨q, hs, hv, hnm, he⟩ | ⟨q, hs, hv, hm, he⟩ | ⟨he, hval⟩
    · rw [he]
      simp only [List.nodup_append, List.nodup_cons, List.not_mem_nil,
        not_false_eq_true, List.nodup_nil, and_true, true_and]
      refine ⟨hnd, ?_⟩
      intro a ha hb
      have : a = q := by simpa using hb
      subst this
      exact hnm ha
    · rw [he]
      exact hnd
    · rw [he]
      exact hnd

/-- C10 witness: the theorem applied to a store already containing
`learnedPat15` with usage 5; re-learning `"15JUN26"` returns `False`,
keeps the singleton pattern list, and bumps the usage counter to 6. -/
theorem C10_witness :
    (learn_from_candidate (fun _ => true) "T"
        ⟨[learnedPat15], [(learnedPat15, 5)]⟩ "15JUN26").1 = false
    ∧ (learn_from_candidate (fun _ => true) "T"
        ⟨[learnedPat15], [(learnedPat15, 5)]⟩ "15JUN26").2.1.learned_patterns =
        [learnedPat15]
    ∧ usageGet
        (learn_from_candidate (fun _ => true) "T"
          ⟨[learnedPat15], [(learnedPat15, 5)]⟩ "15JUN26").2.1.pattern_usage
        learnedPat15 = 6 := by
  have h := (C10_no_duplicates (fun _ => true) "T"
    ⟨[learnedPat15], [(learnedPat15, 5)]⟩ "15JUN26" learnedPat15 3).1
    (by decide) (by decide) (by decide)
  refine ⟨h.1, h.2.1, ?_⟩
  rw [h.2.2]
  decide

/-- Helper: digit characters are digits. -/
theorem digitChar_isDigit (n : Nat) (h : n < 10) :
    (digitChar n).isDigit = true := by
  interval_cases n <;> rfl

/-- Helper: the Spanish month-code alternation of strategy 2 never matches
at a digit character. -/
theorem monthCode_digit (n : Nat) (h : n < 10) (b c : Char) :
    monthCode (digitChar n) b c = none := by
  interval_cases n <;> rfl

/-- Helper: strategy 2 of `parse_date_robust` yields nothing on an 8-digit
all-digit string: its month alternation needs a letter at position 1 or 2. -/
theorem strategy2_digitString (ds : List Nat) (h8 : ds.length = 8)
    (hd : ∀ n ∈ ds, n < 10) : strategy2 (digitString ds) = none := by
  rcases ds with - | ⟨n1, ds⟩
  · simp at h8
  rcases ds with - | ⟨n2, ds⟩
  · simp at h8
  rcases ds with - | ⟨n3, ds⟩
  · simp at h8
  rcases ds with - | ⟨n4, ds⟩
  · simp at h8
  rcases ds with - | ⟨n5, ds⟩
  · simp at h8
  rcases ds with - | ⟨n6, ds⟩
  · simp at h8
  rcases ds with - | ⟨n7, ds⟩
  · simp at h8
  rcases ds with - | ⟨n8, ds⟩
  · simp at h8
  rcases ds with - | ⟨n9, ds⟩
  · have hn2 : n2 < 10 := hd n2 (by simp)
    have hn3 : n3 < 10 := hd n3 (by simp)
    have hg : s2groups
        [digitChar n1, digitChar n2, digitChar n3, digitChar n4, digitChar n5,
         digitChar n6, digitChar n7, digitChar n8] = none := by
      have hA := monthCode_digit n3 hn3 (digitChar n4) (digitChar n5)
      have hB := monthCode_digit n2 hn2 (digitChar n3) (digitChar n4)
      have hn1 : n1 < 10 := hd n1 (by simp)
      simp only [s2groups, digitChar_isDigit n1 hn1, digitChar_isDigit n2 hn2,
        if_pos, s2tail, hA, hB]
    simp only [strategy2, digitString, List.map_cons, List.map_nil]
    rw [hg]
  · simp only [List.length_cons, List.length_nil] at h8
    omega

/-- C7: on every 8-digit all-digit input on which the external locale-aware
parser yields nothing, `parse_date_robust` tries the year-month-day grouping
first, falls back to day-month-year exactly when the first grouping is not a
structurally valid calendar date with year in [1900, 2100], and accepts the
first valid grouping; in particular when exactly one grouping is valid, that
grouping's date is returned. -/
theorem C7_eight_digit :
    ∀ (dp1 : String → Option Date) (ds : List Nat),
      ds.length = 8 → (∀ n ∈ ds, n < 10) →
      dp1 (digitString ds) = none →
      (structurally_valid (y8 (digitString ds)) (m8 (digitString ds))
          (d8 (digitString ds)) = true →
        parse_date_robust dp1 (digitString ds) =
          some ⟨y8 (digitString ds), m8 (digitString ds), d8 (digitString ds)⟩)
      ∧ (structurally_valid (y8 (digitString ds)) (m8 (digitString ds))
          (d8 (digitString ds)) = false →
         structurally_valid (y8r (digitString ds)) (m8r (digitString ds))
          (d8r (digitString ds)) = true →
        parse_date_robust dp1 (digitString ds) =
          some ⟨y8r (digitString ds), m8r (digitString ds), d8r (digitString ds)⟩)
      ∧ (structurally_valid (y8 (digitString ds)) (m8 (digitString ds))
          (d8 (digitString ds)) = false →
         structurally_valid (y8r (digitString ds)) (m8r (digitString ds))
          (d8r (digitString ds)) = false →
        parse_date_robust dp1 (digitString ds) = none) := by
  intro dp1 ds h8 hd hdp
  have hne : digitString ds ≠ "" := by
    intro h
    have hdata : (digitString ds).data = [] := by rw [h]
    have : ds.map digitChar = [] := hdata
    have : ds = [] := List.map_eq_nil_iff.mp this
    rw [this] at h8
    simp at h8
  have hall : (digitString ds).data.all Char.isDigit = true := by
    rw [List.all_eq_true]
    intro c hc
    rcases List.mem_map.mp hc with ⟨n, hn, rfl⟩
    exact digitChar_isDigit n (hd n hn)
  have hlen : (digitString ds).length = 8 := by
    show (ds.map digitChar).length = 8
    rw [List.length_map, h8]
  have hs2 := strategy2_digitString ds h8 hd
  have hmain : parse_date_robust dp1 (digitString ds) =
      parse8digit (digitString ds) := by
    simp only [parse_date_robust, if_neg hne, hdp, hs2]
  have hcond : (digitString ds).length = 8
      ∧ (digitString ds).data.all Char.isDigit := ⟨hlen, hall⟩
  refine ⟨?_, ?_, ?_⟩
  · intro hv1
    rw [hmain]
    simp only [parse8digit, if_pos hcond]
    rw [if_pos hv1]
  · intro hv1 hv2
    rw [hmain]
    simp only [parse8digit, if_pos hcond]
    rw [if_neg (by simp [hv1]), if_pos hv2]
  · intro hv1 hv2
    rw [hmain]
    simp only [parse8digit, if_pos hcond]
    rw [if_neg (by simp [hv1]), if_neg (by simp [hv2])]

/-- C7 witness: for the 8-digit string `31122026`, the year-month-day
grouping (year 3112) is invalid while day-month-year (31.12.2026) is valid,
and the parser returns 2026-12-31. -/
theorem C7_witness :
    parse_date_robust (fun _ => none) (digitString [3, 1, 1, 2, 2, 0, 2, 6]) =
      some ⟨2026, 12, 31⟩ := by
  have h := (C7_eight_digit (fun _ => none) [3, 1, 1, 2, 2, 0, 2, 6]
    (by decide) (by decide) rfl).2.1 (by decide) (by decide)
  rw [h]
  decide

/-- Helper: one-step unfolding of `find_date_fuel` at positive fuel. -/
theorem find_date_fuel_succ (collect : LearnerState → String → List DateCandidate)
    (detect : String → List String) (compiles : String → Bool) (ts : String)
    (f : Nat) (st : LearnerState) (text : String) (el : Bool) :
    find_date_fuel collect detect compiles ts (f + 1) st text el =
      if (pyStrip text.data).isEmpty then some (none, st)
      else
        if (collect st text).isEmpty && el then
          match learnLoop compiles ts st (detect text) with
          | (true, st') => find_date_fuel collect detect compiles ts f st' text false
          | (false, st') => some (none, st')
        else if (collect st text).isEmpty then some (none, st)
        else some ((best_candidate (collect st text)).map (fun c => c.date), st) :=
  rfl

/-- Helper: with learning disabled, `find_date_fuel` never recurses, so its
result is independent of any positive fuel. -/
theorem find_date_fuel_no_learning
    (collect : LearnerState → String → List DateCandidate)
    (detect : String → List String) (compiles : String → Bool) (ts : String)
    (f : Nat) (st : LearnerState) (text : String) :
    find_date_fuel collect detect compiles ts (f + 1) st text false =
      find_date_fuel collect detect compiles ts 1 st text false := by
  rw [find_date_fuel_succ, show (1 : Nat) = 0 + 1 from rfl, find_date_fuel_succ]
  simp only [Bool.and_false, Bool.false_eq_true, if_false]

/-- Helper: with learning disabled, one unit of fuel always produces a
result. -/
theorem find_date_fuel_one_some
    (collect : LearnerState → String → List DateCandidate)
    (detect : String → List String) (compiles : String → Bool) (ts : String)
    (st : LearnerState) (text : String) :
    (find_date_fuel collect detect compiles ts 1 st text false).isSome = true := by
  rw [show (1 : Nat) = 0 + 1 from rfl, find_date_fuel_succ]
  by_cases hstrip : (pyStrip text.data).isEmpty
  · rw [if_pos hstrip]
    rfl
  · rw [if_neg hstrip]
    simp only [Bool.and_false]
    rw [if_neg (by simp)]
    by_cases hc : (collect st text).isEmpty
    · rw [if_pos hc]
      rfl
    · rw [if_neg hc]
      rfl

/-- C5: for every input text (and any behaviour of the external regex
engine), `find_date` with learning enabled terminates — two units of fuel
always suffice and produce a result — and when the learning loop accepts a
new pattern, matching is re-invoked exactly once with learning disabled,
and that re-invocation returns without any further recursion. -/
theorem C5_find_date_single_relearn :
    ∀ (collect : LearnerState → String → List DateCandidate)
      (detect : String → List String) (compiles : String → Bool) (ts : String)
      (n : Nat) (st : LearnerState) (text : String) (el : Bool),
      find_date_fuel collect detect compiles ts (n + 2) st text el =
        find_date_fuel collect detect compiles ts 2 st text el
      ∧ (find_date_fuel collect detect compiles ts 2 st text el).isSome = true
      ∧ ∀ st' : LearnerState, (pyStrip text.data).isEmpty = false →
          (collect st text).isEmpty = true →
          learnLoop compiles ts st (detect text) = (true, st') →
          find_date_fuel collect detect compiles ts 2 st text true =
            find_date_fuel collect detect compiles ts 1 st' text false
          ∧ (find_date_fuel collect detect compiles ts 1 st' text false).isSome
              = true := by
  intro collect detect compiles ts n st text el
  refine ⟨?_, ?_, ?_⟩
  · rw [show n + 2 = (n + 1) + 1 from rfl, find_date_fuel_succ,
      show (2 : Nat) = 1 + 1 from rfl, find_date_fuel_succ]
    by_cases hstrip : (pyStrip text.data).isEmpty
    · rw [if_pos hstrip, if_pos hstrip]
    · rw [if_neg hstrip, if_neg hstrip]
      by_cases hb : ((collect st text).isEmpty && el) = true
      · rw [if_pos hb, if_pos hb]
        rcases hll : learnLoop compiles ts st (detect text) with ⟨b, st'⟩
        cases b
        · rfl
        · exact find_date_fuel_no_learning collect detect compiles ts n st' text
      · rw [if_neg hb, if_neg hb]
  · rw [show (2 : Nat) = 1 + 1 from rfl, find_date_fuel_succ]
    by_cases hstrip : (pyStrip text.data).isEmpty
    · rw [if_pos hstrip]
      rfl
    · rw [if_neg hstrip]
      by_cases hb : ((collect st text).isEmpty && el) = true
      · rw [if_pos hb]
        rcases hll : learnLoop compiles ts st (detect text) with ⟨b, st'⟩
        cases b
        · rfl
        · exact find_date_fuel_one_some collect detect compiles ts st' text
      · rw [if_neg hb]
        by_cases hc : (collect st text).isEmpty
        · rw [if_pos hc]
          rfl
        · rw [if_neg hc]
          rfl
  · intro st' hstrip hcand hll
    constructor
    · rw [show (2 : Nat) = 1 + 1 from rfl, find_date_fuel_succ,
        if_neg (by simp [hstrip]), if_pos (by simp [hcand]), hll]
    · exact find_date_fuel_one_some collect detect compiles ts st' text

/-- C5 witness: with an engine that matches nothing, a detector proposing
`"15JUN26"` and an always-compiling regex engine, the learning pass on text
`"X"` accepts one pattern and re-runs matching once with learning disabled,
producing a result. -/
theorem C5_witness :
    find_date_fuel (fun _ _ => []) (fun _ => ["15JUN26"]) (fun _ => true) "T"
        2 ⟨[], []⟩ "X" true =
      find_date_fuel (fun _ _ => []) (fun _ => ["15JUN26"]) (fun _ => true) "T"
        1 ⟨[learnedPat15], [(learnedPat15, 1)]⟩ "X" false
    ∧ (find_date_fuel (fun _ _ => []) (fun _ => ["15JUN26"]) (fun _ => true) "T"
        1 ⟨[learnedPat15], [(learnedPat15, 1)]⟩ "X" false).isSome = true :=
  (C5_find_date_single_relearn (fun _ _ => []) (fun _ => ["15JUN26"])
    (fun _ => true) "T" 0 ⟨[], []⟩ "X" true).2.2
    ⟨[learnedPat15], [(learnedPat15, 1)]⟩ (by decide) rfl (by decide)

/-- Helper: `find?` only depends on the predicate's values on the list. -/
theorem find_congr {α : Type} (p q : α → Bool) :
    ∀ l : List α, (∀ x ∈ l, p x = q x) → l.find? p = l.find? q := by
  intro l
  induction l with
  | nil => intro _; rfl
  | cons a t ih =>
    intro h
    have ha := h a (List.mem_cons_self a t)
    simp only [List.find?]
    rw [ha]
    cases hq : q a with
    | true => rfl
    | false => exact ih (fun x hx => h x (List.mem_cons_of_mem a hx))

/-- Helper: `pickMax` selects the first element of the key list whose count
dominates every key's count — most votes, earliest key on a tie. -/
theorem pickMax_find (cnt : Date → Nat) :
    ∀ (ks : List Date) (b : Date),
      (b :: ks).find? (fun x => (b :: ks).all (fun y => decide (cnt y ≤ cnt x))) =
        some (pickMax cnt b ks) := by
  intro ks
  induction ks with
  | nil =>
    intro b
    simp [List.find?, pickMax]
  | cons k t ih =>
    intro b
    by_cases hbk : cnt b < cnt k
    · have hkb' : ¬ (cnt k ≤ cnt b) := Nat.not_le.mpr hbk
      have hpredb :
          ((b :: k :: t).all (fun y => decide (cnt y ≤ cnt b))) = false := by
        have hf : decide (cnt k ≤ cnt b) = false := by simp [hkb']
        simp [List.all_cons, hf]
      have hstep :
          (b :: k :: t).find?
              (fun x => (b :: k :: t).all (fun y => decide (cnt y ≤ cnt x))) =
          (k :: t).find?
              (fun x => (b :: k :: t).all (fun y => decide (cnt y ≤ cnt x))) := by
        simp only [List.find?]
        rw [hpredb]
      rw [hstep]
      have hcong : ∀ x ∈ (k :: t),
          ((fun x => (b :: k :: t).all (fun y => decide (cnt y ≤ cnt x))) x) =
          ((fun x => (k :: t).all (fun y => decide (cnt y ≤ cnt x))) x) := by
        intro x _
        simp only [List.all_cons]
        cases hX : (decide (cnt k ≤ cnt x) && t.all (fun y => decide (cnt y ≤ cnt x))) with
        | false =>
          rw [Bool.and_eq_false_iff] at hX
          rcases hX with hX | hX <;> simp [hX]
        | true =>
          rw [Bool.and_eq_true] at hX
          have hk' : cnt k ≤ cnt x := of_decide_eq_true hX.1
          have hb' : cnt b ≤ cnt x := le_of_lt (lt_of_lt_of_le hbk hk')
          simp [hX.1, hX.2, hb']
      rw [find_congr _ _ _ hcong, ih k]
      simp only [pickMax, if_pos hbk]
    · have hkb : cnt k ≤ cnt b := Nat.le_of_not_lt hbk
      have hfb :
          ((b :: k :: t).all (fun y => decide (cnt y ≤ cnt b))) =
          ((b :: t).all (fun y => decide (cnt y ≤ cnt b))) := by
        have ht : decide (cnt k ≤ cnt b) = true := by simp [hkb]
        simp [List.all_cons, ht]
      cases hpb : ((b :: t).all (fun y => decide (cnt y ≤ cnt b))) with
      | true =>
        have h2 : (b :: t).find?
            (fun x => (b :: t).all (fun y => decide (cnt y ≤ cnt x))) = some b := by
          simp only [List.find?]
          rw [hpb]
        have h4 : some b = some (pickMax cnt b t) := h2.symm.trans (ih b)
        have h1 : (b :: k :: t).find?
            (fun x => (b :: k :: t).all (fun y => decide (cnt y ≤ cnt x))) =
              some b := by
          simp only [List.find?]
          rw [hfb, hpb]
        rw [h1, show pickMax cnt b (k :: t) = pickMax cnt b t from by
          simp only [pickMax, if_neg hbk]]
        exact h4
      | false =>
        have hpfb : ((b :: k :: t).all (fun y => decide (cnt y ≤ cnt b))) = false := by
          rw [hfb]
          exact hpb
        have hpfk : ((b :: k :: t).all (fun y => decide (cnt y ≤ cnt k))) = false := by
          cases hx : ((b :: k :: t).all (fun y => decide (cnt y ≤ cnt k))) with
          | false => rfl
          | true =>
            exfalso
            have hall := List.all_eq_true.mp hx
            have hbk2 : cnt b ≤ cnt k :=
              of_decide_eq_true (hall b (List.mem_cons_self b (k :: t)))
            have htrue : ((b :: t).all (fun y => decide (cnt y ≤ cnt b))) = true := by
              rw [List.all_eq_true]
              intro x hx2
              rcases List.mem_cons.mp hx2 with h | h
              · subst h
                simp
              · have hxk := of_decide_eq_true (hall x (by simp [h]))
                have hxb : cnt x ≤ cnt b := le_trans hxk hkb
                simp [hxb]
            rw [hpb] at htrue
            exact Bool.false_ne_true htrue
        have hcong : ∀ x ∈ t,
            ((fun x => (b :: k :: t).all (fun y => decide (cnt y ≤ cnt x))) x) =
            ((fun x => (b :: t).all (fun y => decide (cnt y ≤ cnt x))) x) := by
          intro x _
          simp only [List.all_cons]
          cases hA : decide (cnt b ≤ cnt x) with
          | false => simp [hA]
          | true =>
            have hb' : cnt b ≤ cnt x := of_decide_eq_true hA
            have hk' : cnt k ≤ cnt x := le_trans hkb hb'
            simp [hA, hk']
        have hstep1 :
            (b :: k :: t).find?
                (fun x => (b :: k :: t).all (fun y => decide (cnt y ≤ cnt x))) =
            (k :: t).find?
                (fun x => (b :: k :: t).all (fun y => decide (cnt y ≤ cnt x))) := by
          simp only [List.find?]
          rw [hpfb]
        have hstep2 :
            (k :: t).find?
                (fun x => (b :: k :: t).all (fun y => decide (cnt y ≤ cnt x))) =
            t.find?
                (fun x => (b :: k :: t).all (fun y => decide (cnt y ≤ cnt x))) := by
          simp only [List.find?]
          rw [hpfk]
        have hstep4 :
            (b :: t).find?
                (fun x => (b :: t).all (fun y => decide (cnt y ≤ cnt x))) =
            t.find?
                (fun x => (b :: t).all (fun y => decide (cnt y ≤ cnt x))) := by
          simp only [List.find?]
          rw [hpb]
        rw [hstep1, hstep2,
          find_congr
            (fun x => (b :: k :: t).all (fun y => decide (cnt y ≤ cnt x)))
            (fun x => (b :: t).all (fun y => decide (cnt y ≤ cnt x))) t hcong,
          ← hstep4, ih b]
        simp only [pickMax, if_neg hbk]

/-- C2 (amended): the voting step of `process_image` returns the date with
the most votes, and when two or more dates are tied for the most votes the
tie is broken by the EARLIEST first occurrence across the per-pass results
(`Counter` insertion order), not by score: the winner is exactly the first
key, in first-occurrence order, whose vote count dominates every key's
vote count. -/
theorem C2_amended :
    ∀ l : List Date,
      vote_dates l =
        (firstKeys l).find?
          (fun x => (firstKeys l).all (fun y => decide (l.count y ≤ l.count x))) := by
  intro l
  simp only [vote_dates, most_common1]
  cases hK : firstKeys l with
  | nil => rfl
  | cons k ks => exact (pickMax_find (fun x => l.count x) ks k).symm
